import Mathlib

/-!
# Verification of the khmer-bot core logic

Shallow embedding of the behaviourally relevant parts of `src/bot.py`:
the per-user mode state machine (`get_ai_response`, `mode_command`,
`reset_command`, the quick `/ko`, `/ja`, `/ph` commands), the auto-detect
heuristic `detect_mode_from_text`, the long-message chunker
`send_long_message`, the file-backed user registry (`load_users`,
`save_user_to_file`) and the broadcast loops (`broadcast`,
`send_scheduled_alert`).

Python strings are modelled as `List Char` (sequences of Unicode code
points).  Python `str.lower` is modelled exactly on every code point
whose lowercase output contains an ASCII character: the ASCII uppercase
letters, U+0130 LATIN CAPITAL LETTER I WITH DOT ABOVE (lowering to `i`
followed by the combining dot U+0307, the one multi-character lowercase
mapping in Unicode) and U+212A KELVIN SIGN (lowering to `k`) — an
enumeration that is exhaustive over all of Unicode.  Every other code
point lowers to code points outside ASCII (the context-dependent final
sigma included), which the model abstracts by the identity; the
abstraction cannot change the outcome of any comparison against an
all-ASCII string, and those are the only comparisons the program
makes.  Python `str.isalpha` is likewise modelled on the classes those
comparisons can distinguish: ASCII letters, the Khmer block, the CJK
unified ideograph block and the two special code points above; other
alphabetic code points are abstracted to non-alphabetic, which is
sound for the program's single use of `isalpha` as a guard in front of
an `a..z` bound that their (non-ASCII) lowercase fails anyway.  The
registry
file is modelled as an abstract storage state (absent / unreadable /
a JSON array of elements); every Python exception path that the source
catches is modelled by the value the `except` branch returns.
-/

namespace KhmerBot

/-! ## Character classification (helpers of `detect_mode_from_text`) -/

/-- Code point lies in the Khmer block, Python `"ក" <= ch <= "៿"`. -/
def is_khmer_char (ch : Char) : Bool :=
  decide (0x1780 ≤ ch.toNat ∧ ch.toNat ≤ 0x17FF)

/-- Code point lies in the CJK unified ideograph block,
Python `"一" <= ch <= "鿿"`. -/
def is_cjk_char (ch : Char) : Bool :=
  decide (0x4E00 ≤ ch.toNat ∧ ch.toNat ≤ 0x9FFF)

/-- CPython `ch.lower()` on a single code point, as a character
sequence.  Exact on every code point whose lowercase output contains
an ASCII character: the ASCII uppercase letters shift by 32, U+0130
lowers to `i` followed by the combining dot U+0307 (the one
multi-character lowercase mapping in Unicode), and U+212A KELVIN SIGN
lowers to `k`; a scan of all of Unicode shows these are the only such
code points.  Every other code point lowers to code points outside
ASCII, which the model abstracts by the identity. -/
def pyLowerChar (c : Char) : List Char :=
  if 0x41 ≤ c.toNat ∧ c.toNat ≤ 0x5A then [Char.ofNat (c.toNat + 32)]
  else if c.toNat = 0x130 then [Char.ofNat 0x69, Char.ofNat 0x307]
  else if c.toNat = 0x212A then [Char.ofNat 0x6B]
  else [c]

/-- Python string comparison `s <= t`: lexicographic in code-point
order. -/
def pyStrLe : List Char → List Char → Bool
  | [], _ => true
  | _ :: _, [] => false
  | a :: as, b :: bs =>
    if a.toNat < b.toNat then true
    else if b.toNat < a.toNat then false
    else pyStrLe as bs

/-- Python `str.isalpha` on a single code point, for the classes the
program's comparisons can distinguish: ASCII letters, the Khmer block,
the CJK unified ideograph block, and the two special code points
U+0130 and U+212A (both alphabetic in CPython).  Other alphabetic code
points are abstracted to `false`; the program only uses `isalpha` as a
guard in front of an `a..z` bound that their non-ASCII lowercase fails
anyway, so the conjunction below is exact on every code point. -/
def pyIsAlphaCp (n : Nat) : Bool :=
  decide ((0x41 ≤ n ∧ n ≤ 0x5A) ∨ (0x61 ≤ n ∧ n ≤ 0x7A) ∨
    (0x1780 ≤ n ∧ n ≤ 0x17FF) ∨ (0x4E00 ≤ n ∧ n ≤ 0x9FFF) ∨
    n = 0x130 ∨ n = 0x212A)

/-- The per-character test of the `has_latin` generator in
`detect_mode_from_text`: Python `ch.isalpha()` guard followed by
`"a" <= ch.lower() <= "z"` (string comparison against the possibly
multi-character lowercase).  With the exact `pyLowerChar`, this test
is true of precisely the ASCII letters, U+0130 and U+212A — matching
CPython on all of Unicode. -/
def is_latin_char_py (ch : Char) : Bool :=
  pyIsAlphaCp ch.toNat &&
    (pyStrLe [Char.ofNat 0x61] (pyLowerChar ch) &&
      pyStrLe (pyLowerChar ch) [Char.ofNat 0x7A])

/-- Python `arg.lower()` on a whole string: the concatenation of the
per-character lowercases. -/
def pyLowerString (s : String) : String :=
  String.mk (s.data.map pyLowerChar).flatten

/-- Embedding of `detect_mode_from_text` from `src/bot.py` (lines 364-383): Khmer-only
text resolves to `"learner"`, Latin/CJK-only text to `"foreigner"`, and
everything else (mixed, or none of the signals) to `"learner"`. -/
def detect_mode_from_text (text : List Char) : String :=
  let has_khmer := text.any is_khmer_char
  let has_cjk := text.any is_cjk_char
  let has_latin := text.any is_latin_char_py
  if has_khmer && !(has_latin || has_cjk) then "learner"
  else if (has_latin || has_cjk) && !has_khmer then "foreigner"
  else "learner"

/-- Modelled from the spec: a Latin alphabetic letter, case-insensitive
(the character-class signal of the spec's three-rule reference
definition). -/
def isAsciiLetterSpec (ch : Char) : Bool :=
  decide ((0x41 ≤ ch.toNat ∧ ch.toNat ≤ 0x5A) ∨
    (0x61 ≤ ch.toNat ∧ ch.toNat ≤ 0x7A))

/-- Modelled from the spec: the three-rule reference definition of the
auto-detect heuristic (spec section 4.1): Khmer signal without Latin/CJK
signal resolves to the khmer-learner mode; Latin or CJK signal without
Khmer signal resolves to the foreigner mode; both or neither default to
the khmer-learner mode. -/
def detectModeSpec (text : List Char) : String :=
  let khmer := text.any is_khmer_char
  let cjk := text.any is_cjk_char
  let latin := text.any isAsciiLetterSpec
  if khmer && !latin && !cjk then "learner"
  else if (latin || cjk) && !khmer then "foreigner"
  else "learner"

/-! ## The user registry (`load_users`, `save_user_to_file`) -/

/-- One element of the JSON array stored in `users.json`.  `jint`
models a JSON number on which Python `int(x)` succeeds; `jnull` models
any element on which `int(x)` raises (JSON `null`, a non-numeric
string, a nested array or object). -/
inductive JElem where
  | jint (n : Int)
  | jnull
  deriving DecidableEq

/-- Python `int(x)` on one JSON array element: `none` models a raised
`ValueError` / `TypeError`. -/
def pyInt : JElem → Option Int
  | .jint n => some n
  | .jnull => none

/-- The generator `(int(x) for x in data)` consumed in one go: the first
element on which `int` raises aborts the whole conversion. -/
def pyIntList : List JElem → Option (List Int)
  | [] => some []
  | e :: es =>
    match pyInt e, pyIntList es with
    | some n, some ns => some (n :: ns)
    | _, _ => none

/-- State of the `users.json` storage location.  `absent` models a
missing file (`os.path.exists` is false); `unreadable` models a file
that cannot be opened, is not valid JSON, or whose JSON root cannot be
iterated; `array elems` models a readable JSON array. -/
inductive RegistryFile where
  | absent
  | unreadable
  | array (elems : List JElem)
  deriving DecidableEq

/-- Embedding of `load_users` from `src/bot.py` (lines 313-323): a missing file gives
the empty set; any exception while reading, parsing, or converting the
elements is caught and gives the empty set; otherwise the converted
elements are collected into a set.  The function is total: no failure
propagates to the caller. -/
def load_users (f : RegistryFile) : Finset Int :=
  match f with
  | .absent => ∅
  | .unreadable => ∅
  | .array elems =>
    match pyIntList elems with
    | some ints => ints.toFinset
    | none => ∅

/-- Embedding of `save_user_to_file` from `src/bot.py` (lines 326-335): load the
current set, and only when `chat_id` is not already present, insert it
and write the whole set back as a JSON array (Python serialises
`list(users)`; the model writes the elements in sorted order, one
deterministic enumeration of the set). -/
def save_user_to_file (chat_id : Int) (f : RegistryFile) : RegistryFile :=
  let users := load_users f
  if chat_id ∈ users then f
  else RegistryFile.array (((insert chat_id users).sort (· ≤ ·)).map JElem.jint)

/-! ## Broadcast loops (`broadcast`, `send_scheduled_alert`) -/

/-- The delivery loop of `broadcast` from `src/bot.py` (lines 722-733):
each recipient is attempted inside its own `try`; a failure increments
`failed` and the loop continues.  `sendOk uid` tells whether delivery to
`uid` succeeds.  Returns `(sent, failed, recipients delivered to in
order)`. -/
def broadcast_run : List Int → (Int → Bool) → Nat × Nat × List Int
  | [], _ => (0, 0, [])
  | uid :: rest, sendOk =>
    let r := broadcast_run rest sendOk
    if sendOk uid then (r.1 + 1, r.2.1, uid :: r.2.2)
    else (r.1, r.2.1 + 1, r.2.2)

/-- The delivery loop of `send_scheduled_alert` from `src/bot.py`
(lines 457-462): same per-recipient `try`, no counters; returns the
recipients delivered to, in order. -/
def send_scheduled_alert_run : List Int → (Int → Bool) → List Int
  | [], _ => []
  | uid :: rest, sendOk =>
    if sendOk uid then uid :: send_scheduled_alert_run rest sendOk
    else send_scheduled_alert_run rest sendOk

/-! ## The per-user mode state machine -/

/-- The in-memory `USER_MODES` dictionary: `none` models an absent key,
read through Python `USER_MODES.get(chat_id, "auto")`. -/
abbrev ModesMap : Type := Int → Option String

/-- Python `USER_MODES[chat_id] = m`. -/
def setMode (modes : ModesMap) (chat_id : Int) (m : String) : ModesMap :=
  fun id => if id = chat_id then some m else modes id

/-- The system prompt constants of `src/bot.py` section 3, as tags (the
template bodies are static data). -/
inductive Prompt where
  | khmerLearner
  | foreigner
  | koreanLearner
  | japaneseLearner
  | filipinoLearner
  deriving DecidableEq

/-- The prompt-selection chain of `get_ai_response` (lines 415-425). -/
def prompt_for_mode (mode : String) : Prompt :=
  if mode = "foreigner" then Prompt.foreigner
  else if mode = "korean" then Prompt.koreanLearner
  else if mode = "japanese" then Prompt.japaneseLearner
  else if mode = "filipino" then Prompt.filipinoLearner
  else Prompt.khmerLearner

/-- Embedding of `get_ai_response` from `src/bot.py` (lines 407-428), up to the
external model call: read the stored mode (default `"auto"`); while it
is `"auto"`, run the heuristic and persist its result; then select the
system prompt.  Returns `(resolved mode, selected prompt, new
USER_MODES state)`. -/
def get_ai_response (modes : ModesMap) (chat_id : Int) (user_text : List Char) :
    String × Prompt × ModesMap :=
  let mode0 := (modes chat_id).getD "auto"
  let step : String × ModesMap :=
    if mode0 = "auto" then
      let m := detect_mode_from_text user_text
      (m, setMode modes chat_id m)
    else (mode0, modes)
  (step.1, prompt_for_mode step.1, step.2)

/-- The user-visible outcome of `/mode`. -/
inductive ModeReply where
  | showCurrent (mode : String)
  | changed (mode : String)
  | unknown
  deriving DecidableEq

/-- Embedding of `mode_command` from `src/bot.py` (lines 598-661): with no argument,
report the current mode; otherwise lower-case the first argument, match
it against the alias lists of the `if`/`elif` chain, store the matched
mode and confirm; an argument matching no alias leaves `USER_MODES`
untouched and answers with the unknown-mode notice. -/
def mode_command (modes : ModesMap) (chat_id : Int) (args : List String) :
    ModesMap × ModeReply :=
  match args with
  | [] => (modes, ModeReply.showCurrent ((modes chat_id).getD "auto"))
  | arg :: _ =>
    let a := pyLowerString arg
    if a ∈ ["learner", "khmer", "student"] then
      (setMode modes chat_id "learner", ModeReply.changed "learner")
    else if a ∈ ["foreigner", "en", "eng", "english"] then
      (setMode modes chat_id "foreigner", ModeReply.changed "foreigner")
    else if a ∈ ["korean", "kr"] then
      (setMode modes chat_id "korean", ModeReply.changed "korean")
    else if a ∈ ["japanese", "jp"] then
      (setMode modes chat_id "japanese", ModeReply.changed "japanese")
    else if a ∈ ["filipino", "tagalog", "ph"] then
      (setMode modes chat_id "filipino", ModeReply.changed "filipino")
    else if a ∈ ["auto", "detect"] then
      (setMode modes chat_id "auto", ModeReply.changed "auto")
    else (modes, ModeReply.unknown)

/-- Every mode-name alias accepted by `mode_command`, in chain order. -/
def allModeAliases : List String :=
  ["learner", "khmer", "student", "foreigner", "en", "eng", "english",
   "korean", "kr", "japanese", "jp", "filipino", "tagalog", "ph",
   "auto", "detect"]

/-- The `USER_MODES` effect of `reset_command` from `src/bot.py`
(lines 687-702): the stored mode returns to `"auto"` (the message
counter, also reset there, is not part of this model). -/
def reset_command (modes : ModesMap) (chat_id : Int) : ModesMap :=
  setMode modes chat_id "auto"

/-- The user-visible outcome of the quick `/ko`, `/ja`, `/ph`
commands. -/
inductive QuickReply where
  | usage
  | translated (p : Prompt) (text : String)
  deriving DecidableEq

/-- Embedding of `ko_command` from `src/bot.py` (lines 859-874): join the arguments;
an empty text answers with the usage hint, otherwise the joined text is
translated once with the Korean-learner prompt.  The function never
touches `USER_MODES`, so the state passes through unchanged. -/
def ko_command (modes : ModesMap) (args : List String) : ModesMap × QuickReply :=
  let text := String.intercalate " " args
  if text = "" then (modes, QuickReply.usage)
  else (modes, QuickReply.translated Prompt.koreanLearner text)

/-- Embedding of `ja_command` from `src/bot.py` (lines 877-892): same shape as
`ko_command` with the Japanese-learner prompt; no `USER_MODES`
write. -/
def ja_command (modes : ModesMap) (args : List String) : ModesMap × QuickReply :=
  let text := String.intercalate " " args
  if text = "" then (modes, QuickReply.usage)
  else (modes, QuickReply.translated Prompt.japaneseLearner text)

/-- Embedding of `ph_command` from `src/bot.py` (lines 895-910): same shape as
`ko_command` with the Filipino-learner prompt; no `USER_MODES`
write. -/
def ph_command (modes : ModesMap) (args : List String) : ModesMap × QuickReply :=
  let text := String.intercalate " " args
  if text = "" then (modes, QuickReply.usage)
  else (modes, QuickReply.translated Prompt.filipinoLearner text)

/-! ## The chunker (`send_long_message`) -/

/-- Python slice `s[i : i + n]` for `0 ≤ i`. -/
def pySlice (s : List Char) (i n : Nat) : List Char :=
  (s.drop i).take n

/-- Python `range(0, stop, step)` for `step > 0`: the multiples of
`step` below `stop`. -/
def pyRange0 (stop step : Nat) : List Nat :=
  (List.range ((stop + step - 1) / step)).map (· * step)

/-- The chunk sequence produced by `send_long_message` from `src/bot.py`
(lines 431-443), with the transport constant `max_len = 4000`
generalised to a parameter: empty text sends nothing; text within the
limit is sent as one message; longer text is sent slice by slice,
`text[i : i + max_len]` for `i in range(0, len(text), max_len)`. -/
def send_long_message_chunks (text : List Char) (max_len : Nat) :
    List (List Char) :=
  if text = [] then []
  else if text.length ≤ max_len then [text]
  else (pyRange0 text.length max_len).map fun i => pySlice text i max_len

/-- Reference greedy chunker: repeatedly peel off the first `m`
characters.  Written with an explicit head so the recursion terminates
for every `m`; for `m ≥ 1` the head chunk is exactly `s.take m`. -/
def takeChunks (m : Nat) : List Char → List (List Char)
  | [] => []
  | c :: cs => (c :: cs.take (m - 1)) :: takeChunks m (cs.drop (m - 1))
  termination_by s => s.length
  decreasing_by
    simp only [List.length_drop, List.length_cons]
    omega

/-! ## Registry lemmas -/

/-- Converting a serialised list of integers back never fails and
returns the same list. -/
theorem pyIntList_map_jint (l : List Int) :
    pyIntList (l.map JElem.jint) = some l := by
  induction l with
  | nil => rfl
  | cons n ns ih => simp [pyIntList, pyInt, ih]

/-- A `jnull` element anywhere in the array makes the whole conversion
fail. -/
theorem pyIntList_of_mem_jnull {elems : List JElem}
    (h : JElem.jnull ∈ elems) : pyIntList elems = none := by
  induction elems with
  | nil => cases h
  | cons e es ih =>
    rcases List.mem_cons.mp h with rfl | h2
    · simp [pyIntList, pyInt]
    · cases e with
      | jint n => simp [pyIntList, pyInt, ih h2]
      | jnull => simp [pyIntList, pyInt]

/-- Loading a file that stores a serialised list of integers yields the
set of its elements. -/
theorem load_users_array_map_jint (l : List Int) :
    load_users (RegistryFile.array (l.map JElem.jint)) = l.toFinset := by
  simp [load_users, pyIntList_map_jint]

/-- Registering is a no-op when the identifier is already
registered. -/
theorem save_user_to_file_of_mem {chat_id : Int} {f : RegistryFile}
    (h : chat_id ∈ load_users f) : save_user_to_file chat_id f = f := by
  simp [save_user_to_file, h]

/-- Registering writes a sorted duplicate-free array when the
identifier is new. -/
theorem save_user_to_file_of_not_mem {chat_id : Int} {f : RegistryFile}
    (h : chat_id ∉ load_users f) :
    save_user_to_file chat_id f =
      RegistryFile.array
        (((insert chat_id (load_users f)).sort (· ≤ ·)).map JElem.jint) := by
  simp [save_user_to_file, h]

/-- The set visible after a registration is the old set plus the new
identifier. -/
theorem load_users_save (chat_id : Int) (f : RegistryFile) :
    load_users (save_user_to_file chat_id f) =
      insert chat_id (load_users f) := by
  by_cases h : chat_id ∈ load_users f
  · rw [save_user_to_file_of_mem h, Finset.insert_eq_self.mpr h]
  · rw [save_user_to_file_of_not_mem h, load_users_array_map_jint,
      Finset.sort_toFinset]

/-! ## Claim theorems: registry -/

/-- C5: registering the same identifier twice leaves the stored file
exactly as after registering it once, and a registration that actually
writes stores a duplicate-free array of integers. -/
theorem registerIfAbsent_idempotent (chat_id : Int) (f : RegistryFile) :
    save_user_to_file chat_id (save_user_to_file chat_id f) =
      save_user_to_file chat_id f
  ∧ (chat_id ∉ load_users f →
      ∃ l : List Int,
        save_user_to_file chat_id f = RegistryFile.array (l.map JElem.jint)
        ∧ l.Nodup) := by
  constructor
  · apply save_user_to_file_of_mem
    rw [load_users_save]
    exact Finset.mem_insert_self _ _
  · intro h
    exact ⟨(insert chat_id (load_users f)).sort (· ≤ ·),
      save_user_to_file_of_not_mem h, Finset.sort_nodup _ _⟩

/-- Witness for C5 at identifier `5` and an absent file. -/
theorem registerIfAbsent_idempotent_witness :
    ((5 : Int) ∉ load_users RegistryFile.absent)
  ∧ save_user_to_file 5 (save_user_to_file 5 RegistryFile.absent) =
      save_user_to_file 5 RegistryFile.absent
  ∧ (∃ l : List Int,
      save_user_to_file 5 RegistryFile.absent =
        RegistryFile.array (l.map JElem.jint) ∧ l.Nodup) :=
  ⟨by simp [load_users],
   (registerIfAbsent_idempotent 5 RegistryFile.absent).1,
   (registerIfAbsent_idempotent 5 RegistryFile.absent).2
     (by simp [load_users])⟩

/-- C6: loading an array that enumerates the integers of a set `S`
(in any order, duplicates allowed) returns exactly `S`. -/
theorem registry_round_trip (S : Finset Int) (l : List Int)
    (h : l.toFinset = S) :
    load_users (RegistryFile.array (l.map JElem.jint)) = S := by
  rw [load_users_array_map_jint, h]

/-- Witness for C6: the stored array `[111, 222, 111]` loads to the
two-element set containing `111` and `222`. -/
theorem registry_round_trip_witness :
    ([111, 222, 111] : List Int).toFinset = ({111, 222} : Finset Int)
  ∧ load_users (RegistryFile.array ([111, 222, 111].map JElem.jint)) =
      ({111, 222} : Finset Int) :=
  ⟨by decide, registry_round_trip {111, 222} [111, 222, 111] (by decide)⟩

/-- C7: a missing, unreadable or unparsable registry file loads as the
empty set; `load_users` is a total function, so no read failure reaches
the caller. -/
theorem load_users_failure_empty :
    load_users RegistryFile.absent = ∅
  ∧ load_users RegistryFile.unreadable = ∅ :=
  ⟨rfl, rfl⟩

/-- C10: one unconvertible element in an otherwise well-formed JSON
array makes `load_users` return the empty set, discarding every valid
integer also present. -/
theorem load_users_all_or_nothing (elems : List JElem)
    (h : JElem.jnull ∈ elems) :
    load_users (RegistryFile.array elems) = ∅ := by
  simp [load_users, pyIntList_of_mem_jnull h]

/-- Witness for C10: the array `[111, null, 222]` loads to the empty
set even though `111` and `222` are valid identifiers. -/
theorem load_users_all_or_nothing_witness :
    JElem.jnull ∈ [JElem.jint 111, JElem.jnull, JElem.jint 222]
  ∧ load_users
      (RegistryFile.array [JElem.jint 111, JElem.jnull, JElem.jint 222]) = ∅ :=
  ⟨by decide, load_users_all_or_nothing _ (by decide)⟩

/-! ## Claim theorems: broadcast -/

/-- C9: the broadcast loop attempts every recipient independently: it
delivers exactly to the recipients whose send succeeds (in registry
order), counts them as `sent`, counts the failing recipients as
`failed`, and the scheduled-alert loop delivers to the same recipients;
in particular on `[1, 2, 3]` with recipient `2` failing it delivers to
`1` and `3` and reports 2 successes and 1 failure. -/
theorem broadcast_fault_isolation :
    (∀ (users : List Int) (sendOk : Int → Bool),
      broadcast_run users sendOk =
        ((users.filter sendOk).length,
         (users.filter fun u => !(sendOk u)).length,
         users.filter sendOk))
  ∧ (∀ (users : List Int) (sendOk : Int → Bool),
      send_scheduled_alert_run users sendOk = users.filter sendOk)
  ∧ broadcast_run [1, 2, 3] (fun u => decide (u ≠ 2)) = (2, 1, [1, 3]) := by
  refine ⟨fun users sendOk => ?_, fun users sendOk => ?_, by decide⟩
  · induction users with
    | nil => rfl
    | cons uid rest ih =>
      cases h : sendOk uid <;>
        simp [broadcast_run, List.filter_cons, h, ih]
  · induction users with
    | nil => rfl
    | cons uid rest ih =>
      cases h : sendOk uid <;>
        simp [send_scheduled_alert_run, List.filter_cons, h, ih]

/-! ## The auto-detect heuristic -/

/-- Reading a code point back out of `Char.ofNat`, below the surrogate
range. -/
theorem char_toNat_ofNat {n : Nat} (h : n < 0xD800) :
    (Char.ofNat n).toNat = n := by
  simp [Char.ofNat, Nat.isValidChar, h, Char.ofNatAux, Char.toNat,
    UInt32.toNat, BitVec.toNat_ofNatLt]

/-- Lexicographic comparison of one-character strings is the
code-point comparison. -/
theorem pyStrLe_singleton (a b : Char) :
    pyStrLe [a] [b] = decide (a.toNat ≤ b.toNat) := by
  simp only [pyStrLe]
  split_ifs <;> simp <;> omega

/-- Congruence for `List.any` under pointwise equality on the
members. -/
theorem any_congr_of_mem {l : List Char} {f g : Char → Bool}
    (h : ∀ a ∈ l, f a = g a) : l.any f = l.any g := by
  induction l with
  | nil => rfl
  | cons a as ih =>
    simp only [List.any_cons, h a (List.mem_cons_self a as),
      ih fun x hx => h x (List.mem_cons_of_mem a hx)]

/-- Away from the two special code points U+0130 and U+212A, the
source's per-character Latin test coincides with the spec's
case-insensitive ASCII Latin-letter signal. -/
theorem is_latin_char_py_eq_spec {ch : Char} (h1 : ch.toNat ≠ 0x130)
    (h2 : ch.toNat ≠ 0x212A) :
    is_latin_char_py ch = isAsciiLetterSpec ch := by
  rw [Bool.eq_iff_iff]
  simp only [is_latin_char_py, pyLowerChar, Bool.and_eq_true]
  split_ifs with hA
  · rw [pyStrLe_singleton, pyStrLe_singleton,
      char_toNat_ofNat (show ch.toNat + 32 < 0xD800 by omega),
      char_toNat_ofNat (show 0x61 < 0xD800 by omega),
      char_toNat_ofNat (show 0x7A < 0xD800 by omega)]
    simp only [isAsciiLetterSpec, pyIsAlphaCp, decide_eq_true_eq]
    omega
  · rw [pyStrLe_singleton, pyStrLe_singleton,
      char_toNat_ofNat (show 0x61 < 0xD800 by omega),
      char_toNat_ofNat (show 0x7A < 0xD800 by omega)]
    simp only [isAsciiLetterSpec, pyIsAlphaCp, decide_eq_true_eq]
    omega

/-- The two special code points do trip the source's Latin test,
matching CPython (`"K".lower() == "k"`,
`"İ".lower() == "i̇"`, both within the `a..z` bound). -/
theorem is_latin_char_py_specials :
    is_latin_char_py (Char.ofNat 0x212A) = true
  ∧ is_latin_char_py (Char.ofNat 0x130) = true
  ∧ isAsciiLetterSpec (Char.ofNat 0x212A) = false
  ∧ isAsciiLetterSpec (Char.ofNat 0x130) = false := by
  refine ⟨by decide, by decide, by decide, by decide⟩

/-- The heuristic never resolves to `"auto"`. -/
theorem detect_mode_ne_auto (text : List Char) :
    detect_mode_from_text text ≠ "auto" := by
  simp only [detect_mode_from_text]
  split_ifs <;> decide

/-- The heuristic only resolves to `"learner"` or `"foreigner"`. -/
theorem detect_mode_cases (text : List Char) :
    detect_mode_from_text text = "learner"
  ∨ detect_mode_from_text text = "foreigner" := by
  simp only [detect_mode_from_text]
  split_ifs <;> simp

/-- C2 counterexample: the one-character string U+212A KELVIN SIGN,
whose CPython lowercase is the ASCII letter `k`.  The program counts
it as a Latin signal and resolves to the foreigner mode, while the
spec's three-rule reference definition (Latin letter read
case-insensitively as `A..Z`/`a..z`) sees no signal at all and
defaults to the learner mode, so the claimed universal equality
fails. -/
theorem detect_mode_eq_spec_counterexample :
    detect_mode_from_text [Char.ofNat 0x212A] = "foreigner"
  ∧ detectModeSpec [Char.ofNat 0x212A] = "learner"
  ∧ detect_mode_from_text [Char.ofNat 0x212A] ≠
      detectModeSpec [Char.ofNat 0x212A] := by
  refine ⟨by decide, by decide, by decide⟩

/-- C2 as amended: the source heuristic agrees with the spec's
three-rule reference definition on every input string containing
neither U+0130 nor U+212A — the only two code points in Unicode whose
CPython lowercase lands in the `a..z` bound without being ASCII
letters, which the program counts as Latin signals and the reference
definition does not. -/
theorem detect_mode_eq_spec (text : List Char)
    (h : ∀ ch ∈ text, ch.toNat ≠ 0x130 ∧ ch.toNat ≠ 0x212A) :
    detect_mode_from_text text = detectModeSpec text := by
  have hany : text.any is_latin_char_py = text.any isAsciiLetterSpec :=
    any_congr_of_mem fun ch hch =>
      is_latin_char_py_eq_spec (h ch hch).1 (h ch hch).2
  cases hk : text.any is_khmer_char <;>
    cases hl : text.any isAsciiLetterSpec <;>
      cases hc : text.any is_cjk_char <;>
        simp [detect_mode_from_text, detectModeSpec, hany, hk, hl, hc]

/-- Witness for C2's amended claim on the plain-ASCII string
`Hello`. -/
theorem detect_mode_eq_spec_witness :
    (∀ ch ∈ "Hello".data, ch.toNat ≠ 0x130 ∧ ch.toNat ≠ 0x212A)
  ∧ detect_mode_from_text "Hello".data = detectModeSpec "Hello".data :=
  ⟨by decide, detect_mode_eq_spec "Hello".data (by decide)⟩

/-- Spec scenario: a Khmer-only greeting resolves to the learner
mode. -/
theorem detect_scenario_khmer :
    detect_mode_from_text "សួស្តី".data = "learner" := by decide

/-- Spec scenario: Latin-only text resolves to the foreigner mode. -/
theorem detect_scenario_latin :
    detect_mode_from_text "Hello there".data = "foreigner" := by decide

/-- Spec scenario: CJK-only text resolves to the foreigner mode. -/
theorem detect_scenario_cjk :
    detect_mode_from_text "你好".data = "foreigner" := by decide

/-! ## The mode state machine -/

/-- With a stored non-auto mode, resolution returns that mode for any
message and leaves the state untouched. -/
theorem get_ai_response_stored {modes : ModesMap} {chat_id : Int}
    {m : String} (h : modes chat_id = some m) (hne : m ≠ "auto")
    (text : List Char) :
    get_ai_response modes chat_id text = (m, prompt_for_mode m, modes) := by
  simp [get_ai_response, h, hne]

/-- C1: mode lock-in and persistence.  First, a stored non-auto mode is
returned by every resolution, for any message text, with the state
unchanged.  Second, while the stored mode is `auto`, one resolution runs
the heuristic, returns its verdict, persists it, and every later
resolution returns that persisted verdict with no further state change,
so the heuristic runs exactly once.  Third, after a successful explicit
`/mode` change to a non-auto mode, every resolution returns that mode.
Fourth, after `/reset` the next resolution re-runs the heuristic. -/
theorem mode_lock_in (modes : ModesMap) (chat_id : Int) :
    (∀ m : String, modes chat_id = some m → m ≠ "auto" →
      ∀ text : List Char,
        get_ai_response modes chat_id text = (m, prompt_for_mode m, modes))
  ∧ (∀ text : List Char, (modes chat_id).getD "auto" = "auto" →
      (get_ai_response modes chat_id text).1 = detect_mode_from_text text
      ∧ (get_ai_response modes chat_id text).2.2 chat_id =
          some (detect_mode_from_text text)
      ∧ ∀ text2 : List Char,
          get_ai_response (get_ai_response modes chat_id text).2.2
              chat_id text2 =
            ((get_ai_response modes chat_id text).1,
             (get_ai_response modes chat_id text).2.1,
             (get_ai_response modes chat_id text).2.2))
  ∧ (∀ (arg : String) (rest : List String) (modes2 : ModesMap)
        (m : String),
      mode_command modes chat_id (arg :: rest) =
        (modes2, ModeReply.changed m) → m ≠ "auto" →
      ∀ text : List Char,
        get_ai_response modes2 chat_id text = (m, prompt_for_mode m, modes2))
  ∧ (∀ text : List Char,
      (get_ai_response (reset_command modes chat_id) chat_id text).1 =
        detect_mode_from_text text) := by
  refine ⟨fun m h hne text => get_ai_response_stored h hne text,
    fun text hauto => ?_, fun arg rest modes2 m heq hne text => ?_,
    fun text => ?_⟩
  · have h1 : get_ai_response modes chat_id text =
        (detect_mode_from_text text,
         prompt_for_mode (detect_mode_from_text text),
         setMode modes chat_id (detect_mode_from_text text)) := by
      simp [get_ai_response, hauto]
    refine ⟨by rw [h1], by rw [h1]; simp [setMode], fun text2 => ?_⟩
    rw [h1]
    exact get_ai_response_stored (by simp [setMode])
      (detect_mode_ne_auto text) text2
  · simp only [mode_command] at heq
    split_ifs at heq <;>
      first
      | (obtain ⟨rfl, hm⟩ := Prod.mk.injEq .. ▸ heq
         cases hm
         exact get_ai_response_stored (by simp [setMode]) hne text)
      | cases heq
  · have h0 : reset_command modes chat_id chat_id = some "auto" := by
      simp [reset_command, setMode]
    simp [get_ai_response, h0]

/-- Witness for C1: a user whose stored mode is `korean` keeps it on a
resolution of unrelated text. -/
theorem mode_lock_in_witness :
    get_ai_response (fun _ => some "korean") 7 "hi".data =
      ("korean", prompt_for_mode "korean", fun _ => some "korean") :=
  (mode_lock_in (fun _ => some "korean") 7).1 "korean" rfl
    (by decide) "hi".data

/-- C8: a `/mode` argument whose lower-cased form matches no alias of
the closed enumeration leaves the stored mode untouched and answers
with the unknown-mode notice. -/
theorem mode_command_unknown_noop (modes : ModesMap) (chat_id : Int)
    (arg : String) (rest : List String)
    (h : pyLowerString arg ∉ allModeAliases) :
    mode_command modes chat_id (arg :: rest) = (modes, ModeReply.unknown) := by
  simp only [allModeAliases, List.mem_cons, List.mem_singleton, not_or] at h
  obtain ⟨h1, h2, h3, h4, h5, h6, h7, h8, h9, h10, h11, h12, h13, h14,
    h15, h16⟩ := h
  simp [mode_command, List.mem_cons, List.mem_singleton,
    h1, h2, h3, h4, h5, h6, h7, h8, h9, h10, h11, h12, h13, h14, h15, h16]

/-- Witness for C8 at the unrecognised argument `GerMan` (lower-cased
to `german` before matching). -/
theorem mode_command_unknown_noop_witness :
    pyLowerString "GerMan" ∉ allModeAliases
  ∧ mode_command (fun _ => none) 1 ["GerMan", "x"] =
      ((fun _ => none : ModesMap), ModeReply.unknown) :=
  ⟨by decide,
   mode_command_unknown_noop (fun _ => none) 1 "GerMan" ["x"] (by decide)⟩

/-- Faithfulness check for the lower-casing model: the argument
`KR` (KELVIN SIGN followed by `R`) lowers to the accepted alias
`kr`, exactly as in CPython, so `/mode KR` sets the korean mode
rather than producing the unknown-mode notice. -/
theorem mode_command_kelvin_alias :
    pyLowerString "KR" = "kr"
  ∧ mode_command (fun _ => none) 1 ["KR"] =
      (setMode (fun _ => none) 1 "korean", ModeReply.changed "korean") := by
  constructor
  · decide
  · simp only [mode_command]
    rw [if_neg (by decide), if_neg (by decide), if_pos (by decide)]

/-! ## The quick translation commands -/

/-- C4 counterexample: `/ko hello` run by a user with no stored mode
performs the one-off Korean translation but leaves the stored mode
unresolved (`auto`), not `korean`: the quick commands write no mode. -/
theorem quick_command_no_mode_write_counterexample :
    ((ko_command (fun _ => none) ["hello"]).1 7).getD "auto" ≠ "korean"
  ∧ (ko_command (fun _ => none) ["hello"]).2 =
      QuickReply.translated Prompt.koreanLearner "hello" := by
  constructor
  · decide
  · rfl

/-- C4 as amended: the quick `/ko`, `/ja`, `/ph` commands never modify
the stored mode of any user, and with a non-empty argument they perform
the one-off translation with their fixed mode-specific prompt. -/
theorem quick_commands_translate_only (modes : ModesMap)
    (args : List String) :
    (ko_command modes args).1 = modes
  ∧ (ja_command modes args).1 = modes
  ∧ (ph_command modes args).1 = modes
  ∧ (String.intercalate " " args ≠ "" →
      (ko_command modes args).2 =
        QuickReply.translated Prompt.koreanLearner
          (String.intercalate " " args)
      ∧ (ja_command modes args).2 =
        QuickReply.translated Prompt.japaneseLearner
          (String.intercalate " " args)
      ∧ (ph_command modes args).2 =
        QuickReply.translated Prompt.filipinoLearner
          (String.intercalate " " args)) := by
  refine ⟨?_, ?_, ?_, fun h => ?_⟩
  · simp only [ko_command]
    split_ifs <;> rfl
  · simp only [ja_command]
    split_ifs <;> rfl
  · simp only [ph_command]
    split_ifs <;> rfl
  · refine ⟨?_, ?_, ?_⟩ <;> simp [ko_command, ja_command, ph_command, h]

/-- Witness for C4's amended claim at the argument list `["hi"]`. -/
theorem quick_commands_translate_only_witness :
    (ko_command (fun _ => none) ["hi"]).1 = (fun _ => none : ModesMap)
  ∧ (ko_command (fun _ => none) ["hi"]).2 =
      QuickReply.translated Prompt.koreanLearner "hi" :=
  ⟨(quick_commands_translate_only (fun _ => none) ["hi"]).1,
   ((quick_commands_translate_only (fun _ => none) ["hi"]).2.2.2
     (by decide)).1⟩

/-! ## Chunking lemmas -/

theorem takeChunks_nil (m : Nat) : takeChunks m [] = [] := by
  simp [takeChunks]

theorem takeChunks_cons (m : Nat) (c : Char) (cs : List Char) :
    takeChunks m (c :: cs) =
      (c :: cs.take (m - 1)) :: takeChunks m (cs.drop (m - 1)) := by
  rw [takeChunks]

/-- The greedy chunker concatenates back to the input. -/
theorem takeChunks_flatten (m : Nat) (s : List Char) :
    (takeChunks m s).flatten = s := by
  refine takeChunks.induct m (fun t => (takeChunks m t).flatten = t) ?_ ?_ s
  · simp [takeChunks_nil]
  · intro c cs ih
    rw [takeChunks_cons, List.flatten_cons, ih]
    simp [List.take_append_drop]

/-- The greedy chunker produces `⌈length / m⌉` chunks, written as
`(length + m - 1) / m`. -/
theorem takeChunks_length (m : Nat) (hm : 0 < m) (s : List Char) :
    (takeChunks m s).length = (s.length + m - 1) / m := by
  refine takeChunks.induct m
    (fun t => (takeChunks m t).length = (t.length + m - 1) / m) ?_ ?_ s
  · show (takeChunks m []).length = (([] : List Char).length + m - 1) / m
    rw [takeChunks_nil, List.length_nil, List.length_nil, Nat.zero_add,
      Nat.div_eq_of_lt (by omega)]
  · intro c cs ih
    rw [takeChunks_cons, List.length_cons, ih, List.length_drop,
      List.length_cons]
    rcases Nat.lt_or_ge cs.length m with h | h
    · rw [Nat.div_eq_of_lt (by omega)]
      have h2 : cs.length + 1 + m - 1 = cs.length + m := by omega
      rw [h2, Nat.add_div_right _ hm, Nat.div_eq_of_lt h]
    · have h1 : cs.length - (m - 1) + m - 1 = cs.length := by omega
      have h2 : cs.length + 1 + m - 1 = cs.length + m := by omega
      rw [h1, h2, Nat.add_div_right _ hm]

/-- Every chunk the greedy chunker produces has at most `m`
characters. -/
theorem takeChunks_le (m : Nat) (hm : 0 < m) (s : List Char) :
    ∀ c ∈ takeChunks m s, c.length ≤ m := by
  refine takeChunks.induct m (fun t => ∀ c ∈ takeChunks m t, c.length ≤ m)
    ?_ ?_ s
  · simp [takeChunks_nil]
  · intro c cs ih x hx
    rw [takeChunks_cons] at hx
    rcases List.mem_cons.mp hx with rfl | hx2
    · simp only [List.length_cons, List.length_take]
      have h2 := Nat.min_le_left (m - 1) cs.length
      omega
    · exact ih x hx2

theorem takeChunks_eq_nil_iff (m : Nat) (s : List Char) :
    takeChunks m s = [] ↔ s = [] := by
  cases s with
  | nil => simp [takeChunks_nil]
  | cons c cs => simp [takeChunks_cons]

/-- Every chunk but the last has exactly `m` characters: the cut is a
greedy hard cut at `m`-character boundaries. -/
theorem takeChunks_dropLast (m : Nat) (hm : 0 < m) (s : List Char) :
    ∀ c ∈ (takeChunks m s).dropLast, c.length = m := by
  refine takeChunks.induct m
    (fun t => ∀ c ∈ (takeChunks m t).dropLast, c.length = m) ?_ ?_ s
  · simp [takeChunks_nil]
  · intro c cs ih x hx
    rw [takeChunks_cons] at hx
    cases htail : takeChunks m (cs.drop (m - 1)) with
    | nil =>
      rw [htail, List.dropLast_single] at hx
      cases hx
    | cons t ts =>
      rw [htail, List.dropLast_cons₂] at hx
      rcases List.mem_cons.mp hx with rfl | hx2
      · have hne : cs.drop (m - 1) ≠ [] := by
          intro hnil
          rw [hnil, takeChunks_nil] at htail
          cases htail
        have hlen : m - 1 < cs.length := by
          by_contra hcon
          push_neg at hcon
          exact hne (List.drop_eq_nil_of_le hcon)
        simp only [List.length_cons, List.length_take]
        have h2 := Nat.min_le_left (m - 1) cs.length
        omega
      · refine ih x ?_
        rw [htail]
        exact hx2

/-- The slice-by-slice loop of the source equals the greedy reference
chunker. -/
theorem pyRange_chunks_eq_takeChunks (m : Nat) (hm : 0 < m)
    (s : List Char) :
    (List.range ((s.length + m - 1) / m)).map
      (fun k => (s.drop (k * m)).take m) = takeChunks m s := by
  refine takeChunks.induct m
    (fun t => (List.range ((t.length + m - 1) / m)).map
      (fun k => (t.drop (k * m)).take m) = takeChunks m t) ?_ ?_ s
  · have h0 : (([] : List Char).length + m - 1) / m = 0 := by
      simp only [List.length_nil, Nat.zero_add]
      exact Nat.div_eq_of_lt (by omega)
    show (List.range ((([] : List Char).length + m - 1) / m)).map
      (fun k => (([] : List Char).drop (k * m)).take m) = takeChunks m []
    rw [takeChunks_nil, h0]
    rfl
  · intro c cs ih
    have hK : ((c :: cs).length + m - 1) / m =
        ((cs.drop (m - 1)).length + m - 1) / m + 1 := by
      have t1 := takeChunks_length m hm (c :: cs)
      rw [takeChunks_cons, List.length_cons,
        takeChunks_length m hm] at t1
      omega
    rw [hK, List.range_succ_eq_map, List.map_cons, List.map_map,
      takeChunks_cons]
    congr 1
    · obtain ⟨j, rfl⟩ : ∃ j, m = j + 1 := ⟨m - 1, by omega⟩
      simp [List.take_succ_cons]
    · rw [← ih]
      refine List.map_congr_left ?_
      intro k _
      simp only [Function.comp]
      congr 1
      rw [List.drop_drop]
      have h2 : Nat.succ k * m = k * m + m := Nat.succ_mul k m
      obtain ⟨j, hj⟩ : ∃ j, Nat.succ k * m = j + 1 :=
        ⟨Nat.succ k * m - 1, by omega⟩
      rw [hj, List.drop_succ_cons]
      congr 1
      omega

/-- The chunk sequence of `send_long_message` is exactly the greedy
reference chunker for every positive limit. -/
theorem send_long_message_chunks_eq_takeChunks (s : List Char) (m : Nat)
    (hm : 0 < m) : send_long_message_chunks s m = takeChunks m s := by
  rw [send_long_message_chunks]
  split_ifs with h1 h2
  · rw [h1, takeChunks_nil]
  · cases s with
    | nil => cases h1 rfl
    | cons c cs =>
      rw [takeChunks_cons]
      rw [List.length_cons] at h2
      have hd : cs.drop (m - 1) = [] :=
        List.drop_eq_nil_of_le (by omega)
      rw [hd, takeChunks_nil, List.take_of_length_le (by omega)]
  · rw [pyRange0, List.map_map]
    exact pyRange_chunks_eq_takeChunks m hm s

/-! ## Claim theorem: chunking -/

/-- C3: for every string and positive limit `m`, the chunks of
`send_long_message` concatenate back to the input, each chunk has at
most `m` characters, a non-empty input yields `⌈length / m⌉` chunks
(stated as `(length + m - 1) / m` and pinned as the least `k` with
`length ≤ k * m`), the empty input yields no chunk, an input within the
limit yields the single chunk equal to the input, and every chunk but
the last has exactly `m` characters (greedy hard cut, order
preserved by concatenation). -/
theorem chunking_contract (s : List Char) (m : Nat) (hm : 0 < m) :
    (send_long_message_chunks s m).flatten = s
  ∧ (∀ c ∈ send_long_message_chunks s m, c.length ≤ m)
  ∧ (s ≠ [] →
      (send_long_message_chunks s m).length = (s.length + m - 1) / m)
  ∧ (s.length ≤ m * (send_long_message_chunks s m).length
      ∧ m * (send_long_message_chunks s m).length < s.length + m)
  ∧ (s = [] → send_long_message_chunks s m = [])
  ∧ (s ≠ [] → s.length ≤ m → send_long_message_chunks s m = [s])
  ∧ (∀ c ∈ (send_long_message_chunks s m).dropLast, c.length = m) := by
  have he := send_long_message_chunks_eq_takeChunks s m hm
  refine ⟨?_, ?_, ?_, ?_, ?_, ?_, ?_⟩
  · rw [he]
    exact takeChunks_flatten m s
  · rw [he]
    exact takeChunks_le m hm s
  · intro _
    rw [he]
    exact takeChunks_length m hm s
  · rw [he, takeChunks_length m hm s]
    have hd := Nat.div_add_mod (s.length + m - 1) m
    have hmod := Nat.mod_lt (s.length + m - 1) hm
    constructor <;> omega
  · intro h0
    rw [h0]
    rfl
  · intro h1 h2
    simp [send_long_message_chunks, h1, h2]
  · rw [he]
    exact takeChunks_dropLast m hm s

/-- Witness for C3 on the five-character string `abcde` with limit 2:
three chunks `ab`, `cd`, `e` that concatenate back. -/
theorem chunking_contract_witness :
    send_long_message_chunks "abcde".data 2 =
      ["ab".data, "cd".data, "e".data]
  ∧ (send_long_message_chunks "abcde".data 2).flatten = "abcde".data :=
  ⟨by decide, (chunking_contract "abcde".data 2 (by decide)).1⟩

end KhmerBot
